import Mathlib

/-
Verification model of the presence and message-delivery subsystem of a
real-time chat backend (NestJS + Socket.IO + Redis + Postgres).

The definitions below are a shallow embedding of:
  - UserPresenceService (user-presence.service.ts): Redis-backed presence
    store keyed by user (presence record, online-users set, per-user socket
    set);
  - ChatService (chat.service.ts): message storage operations
    (updateMessageStatus, getUndeliveredMessages, forwardMessage,
    forwardMultipleMessages, saveMessage, getMessage, getChat);
  - SocketGateway (socket.gateway.ts): connection lifecycle
    (handleConnection, handleDisconnect), message send (handleMessage),
    room join with the delivered-sweep (handleChatJoin), and the read
    acknowledgement (handleMessageRead).

Redis sets are modelled as duplicate-free lists (sadd / srem), Redis keys
and in-memory Maps as association lists.  Database rows live in a Store
record; TypeORM save-by-primary-key is modelled as an id-keyed map update.
Timestamps (Date.now) are explicit Nat arguments; generated uuids are
explicit arguments or drawn from a counter in the store.  Log statements
and fire-and-forget Kafka publications (which swallow their own errors and
do not affect control flow) are not modelled.
-/

/-- Association-list lookup with a default, modelling a Redis read of a
possibly missing key (smembers of an absent set key yields the empty set). -/
def alistGetD {α : Type} (l : List (String × α)) (k : String) (d : α) : α :=
  match l.find? (fun p => decide (p.1 = k)) with
  | some p => p.2
  | none => d

/-- Association-list write, modelling a Redis SET / Map.set on a key: the
key is bound to exactly the new value afterwards.  The entry is kept at
the front; only map observations (lookups) matter to the model. -/
def alistSet {α : Type} (l : List (String × α)) (k : String) (v : α) : List (String × α) :=
  (k, v) :: l.filter (fun p => decide (p.1 ≠ k))

/-- Association-list lookup, modelling Map.get. -/
def alistFind {α : Type} (l : List (String × α)) (k : String) : Option α :=
  (l.find? (fun p => decide (p.1 = k))).map (fun p => p.2)

/-- Redis SADD on a set modelled as a duplicate-free list. -/
def saddL (l : List String) (x : String) : List String :=
  if x ∈ l then l else l ++ [x]

/-- Redis SREM on a set modelled as a duplicate-free list. -/
def sremL (l : List String) (x : String) : List String :=
  l.filter (fun y => decide (y ≠ x))

/-- Presence status values stored in the user:presence:* records. -/
inductive PresenceStatus : Type
  | online
  | offline
  | away
deriving DecidableEq, Repr

/-- UserPresence record as serialised to Redis by UserPresenceService. -/
structure PresenceRecord : Type where
  userId : String
  status : PresenceStatus
  lastSeen : Nat
  socketId : Option String
deriving DecidableEq, Repr

/-- The slice of Redis state owned by UserPresenceService: the
user:presence:* records, the users:online set and the user:sockets:* sets. -/
structure PresenceState : Type where
  records : List (String × PresenceRecord)
  online : List String
  sockets : List (String × List String)
deriving DecidableEq, Repr

/-- Redis state at process start: no presence data at all. -/
def presenceInit : PresenceState := ⟨[], [], []⟩

/-- UserPresenceService.setOnline: writes the online presence record, adds
the user to the users:online set and adds the socket id to the user's
socket set.  The Date.now() timestamp is the explicit argument now. -/
def setOnline (st : PresenceState) (userId socketId : String) (now : Nat) : PresenceState :=
  { records := alistSet st.records userId
      { userId := userId, status := .online, lastSeen := now, socketId := some socketId },
    online := saddL st.online userId,
    sockets := alistSet st.sockets userId (saddL (alistGetD st.sockets userId []) socketId) }

/-- UserPresenceService.getUserSockets on a healthy Redis: smembers of the
user's socket set (empty when the key is absent). -/
def getUserSockets (st : PresenceState) (userId : String) : List String :=
  alistGetD st.sockets userId []

/-- UserPresenceService.setOffline: removes the socket id from the user's
socket set, re-reads the set (getUserSockets), and only when it came back
empty writes the offline record and removes the user from users:online. -/
def setOffline (st : PresenceState) (userId socketId : String) (now : Nat) : PresenceState :=
  let sockets1 := alistSet st.sockets userId (sremL (alistGetD st.sockets userId []) socketId)
  let activeSockets := alistGetD sockets1 userId []
  if activeSockets.isEmpty then
    { records := alistSet st.records userId
        { userId := userId, status := .offline, lastSeen := now, socketId := none },
      online := sremL st.online userId,
      sockets := sockets1 }
  else
    { st with sockets := sockets1 }

/-- Redis SISMEMBER on the users:online set (1 when present, 0 otherwise). -/
def sismember (st : PresenceState) (userId : String) : Nat :=
  if userId ∈ st.online then 1 else 0

/-- UserPresenceService.isUserOnline on a healthy Redis: sismember == 1. -/
def isUserOnline (st : PresenceState) (userId : String) : Bool :=
  sismember st userId == 1

/-- UserPresenceService.getOnlineUsers on a healthy Redis: smembers of the
users:online set. -/
def getOnlineUsers (st : PresenceState) : List String :=
  st.online

/-- A failed Redis round-trip carries an opaque error value. -/
def RedisError : Type := String

/-- UserPresenceService.isUserOnline including its catch branch: the
sismember round-trip either yields a count or fails; on failure the
method returns false. -/
def isUserOnlineOnResult (res : Except RedisError Nat) : Bool :=
  match res with
  | .ok n => n == 1
  | .error _ => false

/-- UserPresenceService.getUserSockets including its catch branch: on a
failed smembers round-trip the method returns the empty list. -/
def getUserSocketsOnResult (res : Except RedisError (List String)) : List String :=
  match res with
  | .ok l => l
  | .error _ => []

/-- UserPresenceService.getOnlineUsers including its catch branch: on a
failed smembers round-trip the method returns the empty list. -/
def getOnlineUsersOnResult (res : Except RedisError (List String)) : List String :=
  match res with
  | .ok l => l
  | .error _ => []

/-- One presence-store operation: MarkOnline or MarkOffline with its
Date.now() timestamp. -/
inductive PresOp : Type
  | markOnline (userId socketId : String) (now : Nat)
  | markOffline (userId socketId : String) (now : Nat)
deriving DecidableEq, Repr

/-- Run one presence operation. -/
def execPresOp (st : PresenceState) : PresOp → PresenceState
  | .markOnline u s now => setOnline st u s now
  | .markOffline u s now => setOffline st u s now

/-- Run a sequence of presence operations from left to right. -/
def execPresOps (ops : List PresOp) (st : PresenceState) : PresenceState :=
  ops.foldl execPresOp st

/-- Presence consistency: a user is in the online set exactly when their
stored socket set is non-empty. -/
def presenceConsistent (st : PresenceState) : Prop :=
  ∀ u, isUserOnline st u = true ↔ getUserSockets st u ≠ []

/-- MessageDeliveryStatus from the shared webchat common package. -/
inductive MessageDeliveryStatus : Type
  | SENT
  | DELIVERED
  | READ
deriving DecidableEq, Repr

/-- Message row (message.entity.ts), restricted to the delivery-relevant
and forwarding-relevant columns. -/
structure Message : Type where
  id : String
  chatId : String
  senderId : String
  content : String
  status : MessageDeliveryStatus
  isPinned : Bool
  isForwarded : Bool
  forwardedFromId : Option String
  originalSenderId : Option String
  createdAt : Nat
deriving DecidableEq, Repr

/-- Chat row (chat.entity.ts) with its participants relation. -/
structure Chat : Type where
  id : String
  participants : List String
deriving DecidableEq, Repr

/-- Database state seen by ChatService: user ids, chat rows, message rows,
plus a counter supplying the uuids that the service generates. -/
structure Store : Type where
  users : List String
  chats : List Chat
  messages : List Message
  nextId : Nat
deriving DecidableEq, Repr

/-- Errors thrown by ChatService.  NotFoundException and ConflictException
carry human-readable strings in the source; only the class matters here.
Generic Error throws (non-participant check in handleChatJoin) map to
otherError. -/
inductive ServiceError : Type
  | notFound
  | conflict
  | otherError
deriving DecidableEq, Repr

/-- ChatService.getMessage: findOne by message id. -/
def getMessage (st : Store) (messageId : String) : Option Message :=
  st.messages.find? (fun m => decide (m.id = messageId))

/-- ChatService.getChat: findOne by chat id with participants loaded;
throws NotFoundException when the chat does not exist.  The messages
relation of the returned DTO is not used by the handlers modelled here. -/
def getChat (st : Store) (chatId : String) : Except ServiceError Chat :=
  match st.chats.find? (fun c => decide (c.id = chatId)) with
  | some c => .ok c
  | none => .error .notFound

/-- TypeORM save of a message whose status was reassigned: the row with
the message's primary key gets the new status. -/
def setStatusAll (msgs : List Message) (messageId : String)
    (status : MessageDeliveryStatus) : List Message :=
  msgs.map (fun m => if m.id = messageId then { m with status := status } else m)

/-- ChatService.updateMessageStatus: loads the message and its chat
(throwing NotFoundException if either is missing), then unconditionally
assigns the new status and saves.  There is no guard comparing the old
and new status. -/
def updateMessageStatus (st : Store) (messageId : String)
    (status : MessageDeliveryStatus) : Except ServiceError Store :=
  match st.messages.find? (fun m => decide (m.id = messageId)) with
  | none => .error .notFound
  | some m =>
    match st.chats.find? (fun c => decide (c.id = m.chatId)) with
    | none => .error .notFound
    | some _ => .ok { st with messages := setStatusAll st.messages messageId status }

/-- Row filter of the getUndeliveredMessages query: the message's chat has
userId among its participants, the status is SENT, the sender is not
userId, and (when given) the chat id matches. -/
def undeliveredPred (st : Store) (userId : String) (chatId : Option String)
    (m : Message) : Bool :=
  (match st.chats.find? (fun c => decide (c.id = m.chatId)) with
   | some c => decide (userId ∈ c.participants)
   | none => false)
  && decide (m.status = .SENT)
  && decide (m.senderId ≠ userId)
  && (match chatId with
      | some cid => decide (m.chatId = cid)
      | none => true)

/-- ChatService.getUndeliveredMessages: SELECT messages joined to their
chat's participants WHERE participant.id = userId AND status = SENT AND
senderId != userId (AND chatId = :chatId when given). -/
def getUndeliveredMessages (st : Store) (userId : String)
    (chatId : Option String) : List Message :=
  st.messages.filter (undeliveredPred st userId chatId)

/-- ChatService.saveMessage: verifies the chat and the sender exist
(NotFoundException otherwise) and inserts the message row using the id
and status passed by the caller. -/
def saveMessage (st : Store) (m : Message) : Except ServiceError (Store × Message) :=
  match st.chats.find? (fun c => decide (c.id = m.chatId)) with
  | none => .error .notFound
  | some _ =>
    if m.senderId ∈ st.users then
      .ok ({ st with messages := st.messages ++ [m] }, m)
    else
      .error .notFound

/-- Content of a forwarded message: the original content, prefixed by the
additional content and a separator when additional content was given. -/
def forwardContent (original : String) (additionalContent : Option String) : String :=
  match additionalContent with
  | some a => a ++ "\n\n--- Forwarded message ---\n" ++ original
  | none => original

/-- Uuid generation, modelled by the store's id counter. -/
def genId (n : Nat) : String := "uuid-" ++ toString n

/-- ChatService.forwardMessage: loads the original message, checks the
caller participates in the original chat and in the target chat
(NotFound / Conflict otherwise), then inserts a new SENT message into
the target chat carrying the forwarding metadata. -/
def forwardMessage (st : Store) (messageId toChatId userId : String)
    (additionalContent : Option String) (now : Nat) :
    Except ServiceError (Store × Message) :=
  match st.messages.find? (fun m => decide (m.id = messageId)) with
  | none => .error .notFound
  | some originalMessage =>
    match st.chats.find? (fun c => decide (c.id = originalMessage.chatId)) with
    | none => .error .notFound
    | some originalChat =>
      if userId ∈ originalChat.participants then
        match st.chats.find? (fun c => decide (c.id = toChatId)) with
        | none => .error .notFound
        | some targetChat =>
          if userId ∈ targetChat.participants then
            let fm : Message :=
              { id := genId st.nextId, chatId := toChatId, senderId := userId,
                content := forwardContent originalMessage.content additionalContent,
                status := .SENT, isPinned := false, isForwarded := true,
                forwardedFromId := some originalMessage.id,
                originalSenderId := some originalMessage.senderId, createdAt := now }
            .ok ({ st with messages := st.messages ++ [fm], nextId := st.nextId + 1 }, fm)
          else
            .error .conflict
      else
        .error .conflict

/-- Loop body of forwardMultipleMessages: each forwardMessage call is
wrapped in try/catch, so a failed forward is logged and skipped while
the successes accumulate in request order. -/
def forwardLoop (st : Store) (messageIds : List String) (toChatId userId : String)
    (now : Nat) : Store × List Message :=
  match messageIds with
  | [] => (st, [])
  | messageId :: rest =>
    match forwardMessage st messageId toChatId userId none now with
    | .ok (st1, m) =>
      let r := forwardLoop st1 rest toChatId userId now
      (r.1, m :: r.2)
    | .error _ => forwardLoop st rest toChatId userId now

/-- ChatService.forwardMultipleMessages: iterates forwardMessage over the
requested ids, catching each failure; nothing outside the per-message
try/catch can throw, so the method always resolves with the collected
list. -/
def forwardMultipleMessages (st : Store) (messageIds : List String)
    (toChatId userId : String) (now : Nat) :
    Except ServiceError (Store × List Message) :=
  .ok (forwardLoop st messageIds toChatId userId now)

/-- ConnectedClient entry of the gateway's in-process connectedClients
map (socket reference elided; the map key is the socket id). -/
structure ConnectedClient : Type where
  userId : String
  lastActivity : Nat
deriving DecidableEq, Repr

/-- Process-local gateway state: the connectedClients map keyed by socket
id, and the Socket.IO adapter's rooms (room name to member socket ids). -/
structure GatewayState : Type where
  connectedClients : List (String × ConnectedClient)
  rooms : List (String × List String)
deriving DecidableEq, Repr

/-- Socket.join: adds the socket id to the room's member set. -/
def joinRoom (rooms : List (String × List String)) (roomName socketId : String) :
    List (String × List String) :=
  alistSet rooms roomName (saddL (alistGetD rooms roomName []) socketId)

/-- Events the gateway emits over Socket.IO.  usersUpdate is the global
users:update broadcast; messageStatus is a message:status emit targeted
at a socket id or user room; messageEvt is the message broadcast to a
chat room; messageAck is the per-sender acknowledgement;
connectionEstablished is the handshake confirmation. -/
inductive Emit : Type
  | usersUpdate (userId : String) (isOnline : Bool)
  | messageStatus (target : String) (messageId : String) (status : MessageDeliveryStatus)
  | messageEvt (room : String) (messageId : String)
  | messageAck (socketId : String) (messageId : String)
  | connectionEstablished (socketId userId : String)
deriving DecidableEq, Repr

/-- Response of a Socket.IO handler that catches its own errors: either
the ok payload or the error payload.  The human-readable error strings
are elided. -/
inductive WsResp : Type
  | okResp
  | errResp
deriving DecidableEq, Repr

/-- SocketGateway.handleConnection for an authenticated socket: registers
the client in connectedClients, joins the per-user room, marks the user
online in Redis and broadcasts users:update with isOnline = true. -/
def handleConnection (gst : GatewayState) (pst : PresenceState)
    (socketId userId : String) (now : Nat) :
    GatewayState × PresenceState × List Emit :=
  let gst1 : GatewayState :=
    { connectedClients := alistSet gst.connectedClients socketId ⟨userId, now⟩,
      rooms := joinRoom gst.rooms ("user:" ++ userId) socketId }
  let pst1 := setOnline pst userId socketId now
  (gst1, pst1, [Emit.connectionEstablished socketId userId, Emit.usersUpdate userId true])

/-- SocketGateway.handleDisconnect: looks the socket up in
connectedClients (returning silently when absent, which also makes a
second delivery of the disconnect event a no-op), removes it, checks
whether the user still has other local connections, marks the socket
offline in Redis, and broadcasts users:update with isOnline = false only
when no other connection remains. -/
def handleDisconnect (gst : GatewayState) (pst : PresenceState)
    (socketId : String) (now : Nat) :
    GatewayState × PresenceState × List Emit :=
  match alistFind gst.connectedClients socketId with
  | none => (gst, pst, [])
  | some clientInfo =>
    let clients1 := gst.connectedClients.filter (fun p => decide (p.1 ≠ socketId))
    let hasOtherConnections := clients1.any (fun p => decide (p.2.userId = clientInfo.userId))
    let pst1 := setOffline pst clientInfo.userId socketId now
    let emits := if hasOtherConnections then [] else [Emit.usersUpdate clientInfo.userId false]
    ({ gst with connectedClients := clients1 }, pst1, emits)

/-- The reachability check handleMessage performs inline: the first chat
participant other than the sender is the recipient; the check asks
whether any of the recipient's registered sockets is currently a member
of the chat's room. -/
def recipientInChat (gst : GatewayState) (chat : Chat) (userId chatId : String) : Bool :=
  let recipientId := chat.participants.find? (fun i => decide (i ≠ userId))
  let room := alistGetD gst.rooms ("chat:" ++ chatId) []
  let recipientSocketIds :=
    (gst.connectedClients.filter (fun p =>
      match recipientId with
      | some rid => decide (p.2.userId = rid)
      | none => false)).map (fun p => p.1)
  recipientSocketIds.any (fun sid => decide (sid ∈ room))

/-- SocketGateway.handleMessage: loads the chat, takes the first
participant other than the sender as the recipient, checks whether any
of the recipient's registered sockets is in the chat room
(recipientInChat), chooses the initial status accordingly (DELIVERED
when reachable in-room, SENT otherwise), saves the message and emits the
room broadcast plus the sender acknowledgement.  freshId is the
generated uuid, now the Date.now() timestamp. -/
def handleMessage (gst : GatewayState) (st : Store) (socketId userId : String)
    (chatId content freshId : String) (now : Nat) :
    Except ServiceError (Store × Message × List Emit) :=
  match getChat st chatId with
  | .error e => .error e
  | .ok chat =>
    let isRecipientInChat := recipientInChat gst chat userId chatId
    let initialStatus : MessageDeliveryStatus :=
      if isRecipientInChat then .DELIVERED else .SENT
    match saveMessage st
        { id := freshId, chatId := chatId, senderId := userId, content := content,
          status := initialStatus, isPinned := false, isForwarded := false,
          forwardedFromId := none, originalSenderId := none, createdAt := now } with
    | .error e => .error e
    | .ok (st1, message) =>
      .ok (st1, message,
        [Emit.messageEvt ("chat:" ++ chatId) message.id,
         Emit.messageAck socketId message.id])

/-- The message:status notifications the join sweep sends for one swept
message: one emit per registered socket of the message's sender. -/
def sweepNotifs (gst : GatewayState) (m : Message) : List Emit :=
  ((gst.connectedClients.filter (fun p => decide (p.2.userId = m.senderId))).map
    (fun p => Emit.messageStatus p.1 m.id .DELIVERED))

/-- Write phase of the join sweep in handleChatJoin: for each message of
the snapshot, updateMessageStatus(..., DELIVERED) and then a
message:status emit to every registered socket of the sender.  An
exception from updateMessageStatus aborts the loop (the earlier writes
persist in the store) and propagates. -/
def sweepLoop (gst : GatewayState) :
    List Message → Store → List Emit → Store × List Emit × Option ServiceError
  | [], st, acc => (st, acc, none)
  | m :: rest, st, acc =>
    match updateMessageStatus st m.id .DELIVERED with
    | .error e => (st, acc, some e)
    | .ok st1 => sweepLoop gst rest st1 (acc ++ sweepNotifs gst m)

/-- Decidable equality of Except results, needed to compare handler
outcomes on concrete inputs. -/
instance {ε α : Type} [DecidableEq ε] [DecidableEq α] : DecidableEq (Except ε α) :=
  fun a b =>
    match a, b with
    | .ok x, .ok y =>
      if h : x = y then isTrue (by rw [h]) else isFalse (fun hh => h (Except.ok.inj hh))
    | .error x, .error y =>
      if h : x = y then isTrue (by rw [h]) else isFalse (fun hh => h (Except.error.inj hh))
    | .ok _, .error _ => isFalse (fun hh => Except.noConfusion hh)
    | .error _, .ok _ => isFalse (fun hh => Except.noConfusion hh)

/-- Result of handleChatJoin: the gateway state, the database state (which
persists even when the handler throws midway), the emitted events and
the response or propagated error. -/
structure JoinResult : Type where
  gateway : GatewayState
  store : Store
  emits : List Emit
  response : Except ServiceError Unit
deriving DecidableEq, Repr

/-- SocketGateway.handleChatJoin: loads the chat (NotFound propagates),
rejects non-participants, joins the socket to the chat room, queries the
user's undelivered (SENT) messages of that chat, and runs the
delivered-sweep over that snapshot.  The snapshot query and the
per-message writes straddle await points in the source, so another
handler can run between them; the decomposition into
getUndeliveredMessages followed by sweepLoop mirrors exactly that. -/
def handleChatJoin (gst : GatewayState) (st : Store) (socketId userId chatId : String) :
    JoinResult :=
  match getChat st chatId with
  | .error e => ⟨gst, st, [], .error e⟩
  | .ok chat =>
    if userId ∈ chat.participants then
      let gst1 : GatewayState :=
        { gst with rooms := joinRoom gst.rooms ("chat:" ++ chatId) socketId }
      let undelivered := getUndeliveredMessages st userId (some chatId)
      let r := sweepLoop gst1 undelivered st []
      ⟨gst1, r.1, r.2.1, match r.2.2 with
        | none => .ok ()
        | some e => .error e⟩
    else
      ⟨gst, st, [], .error .otherError⟩

/-- SocketGateway.handleMessageRead: loads the message (error response if
absent), checks the caller participates in its chat (error response
otherwise), unconditionally updates the status to READ, and emits
message:status READ to the sender's user room.  Nothing compares the
stored status with READ first.  The timestamp field of the emitted
payload is elided. -/
def handleMessageRead (gst : GatewayState) (st : Store) (userId messageId : String) :
    Store × List Emit × WsResp :=
  match getMessage st messageId with
  | none => (st, [], .errResp)
  | some message =>
    match getChat st message.chatId with
    | .error _ => (st, [], .errResp)
    | .ok chat =>
      if userId ∈ chat.participants then
        match updateMessageStatus st messageId .READ with
        | .error _ => (st, [], .errResp)
        | .ok st1 =>
          (st1, [Emit.messageStatus ("user:" ++ message.senderId) messageId .READ], .okResp)
      else
        (st, [], .errResp)

/-- Rank of a delivery status in the SENT, DELIVERED, READ order. -/
def statusRank : MessageDeliveryStatus → Nat
  | .SENT => 0
  | .DELIVERED => 1
  | .READ => 2

/-- The two operations that write delivery status, each taken as one
atomic (non-interleaved) step: a full chat:join (snapshot plus sweep)
and a full message:read. -/
inductive ChatOp : Type
  | join (socketId userId chatId : String)
  | readAck (userId messageId : String)
deriving DecidableEq, Repr

/-- Database effect of one atomic status-writing operation. -/
def applyChatOp (gst : GatewayState) (st : Store) : ChatOp → Store
  | .join sid u cid => (handleChatJoin gst st sid u cid).store
  | .readAck u mid => (handleMessageRead gst st u mid).1

/-- Database effect of a sequence of atomic status-writing operations. -/
def applyChatOps (gst : GatewayState) (ops : List ChatOp) (st : Store) : Store :=
  ops.foldl (applyChatOp gst) st

/-- Modelled from the spec: the recipient has at least one connection with
the chat's room already joined at send time. -/
def recipientReachableInRoom (gst : GatewayState) (chatId rid : String) : Prop :=
  ∃ p ∈ gst.connectedClients,
    p.2.userId = rid ∧ p.1 ∈ alistGetD gst.rooms ("chat:" ++ chatId) []

/-- The recipient the gateway computes for a send in this chat: the first
participant different from the sender. -/
def chatRecipient (st : Store) (chatId userId : String) : Option String :=
  match getChat st chatId with
  | .ok chat => chat.participants.find? (fun i => decide (i ≠ userId))
  | .error _ => none

/-- Bulk form of the join sweep's database effect: every message whose id
is in the swept snapshot gets status DELIVERED. -/
def bulkDeliver (ids : List String) (msgs : List Message) : List Message :=
  msgs.map (fun m => if m.id ∈ ids then { m with status := .DELIVERED } else m)

/-- Fixture user id. -/
def uA : String := "alice"

/-- Fixture user id. -/
def uB : String := "bob"

/-- Fixture socket id (first connection of alice). -/
def sA : String := "sock-a1"

/-- Fixture socket id (second connection of alice). -/
def sA2 : String := "sock-a2"

/-- Fixture socket id (connection of bob). -/
def sB : String := "sock-b1"

/-- Fixture chat id. -/
def c1id : String := "chat-1"

/-- Fixture chat id of the forwarding target chat. -/
def c2id : String := "chat-2"

/-- Fixture message id. -/
def m1id : String := "msg-1"

/-- A message id present in no store. -/
def bogusId : String := "no-such-message"

/-- Fixture chat between alice and bob. -/
def chat1 : Chat := ⟨c1id, [uA, uB]⟩

/-- Second fixture chat between alice and bob. -/
def chat2 : Chat := ⟨c2id, [uA, uB]⟩

/-- Fixture message from alice in chat1, still SENT. -/
def m1 : Message :=
  ⟨m1id, c1id, uA, "hi", .SENT, false, false, none, none, 1⟩

/-- Fixture database: both users, both chats, the one SENT message. -/
def st0 : Store := ⟨[uA, uB], [chat1, chat2], [m1], 0⟩

/-- The fixture message after a read acknowledgement. -/
def m1read : Message := { m1 with status := .READ }

/-- Fixture database in which m1 is already READ. -/
def stRead : Store := { st0 with messages := [m1read] }

/-- Fixture DELIVERED message from alice in chat1. -/
def m2 : Message :=
  ⟨"msg-2", c1id, uA, "yo", .DELIVERED, false, false, none, none, 2⟩

/-- Fixture SENT message authored by bob in chat1. -/
def m3 : Message :=
  ⟨"msg-3", c1id, uB, "hey", .SENT, false, false, none, none, 3⟩

/-- Fixture database with messages of each delivery-relevant shape. -/
def stMulti : Store := ⟨[uA, uB], [chat1, chat2], [m1, m2, m3], 0⟩

/-- Fixture gateway: alice's socket registered, bob's socket registered
and already joined to chat1's room. -/
def gstW : GatewayState :=
  ⟨[(sA, ⟨uA, 0⟩), (sB, ⟨uB, 0⟩)], [("chat:" ++ c1id, [sB])]⟩

/-- Fixture gateway for disconnect scenarios: alice holds two registered
connections. -/
def gstD : GatewayState := ⟨[(sA, ⟨uA, 0⟩), (sA2, ⟨uA, 0⟩)], []⟩

/-- Fixture Redis presence reached by alice connecting twice. -/
def pstD : PresenceState := setOnline (setOnline presenceInit uA sA 0) uA sA2 0

/-- The message alice's fixture send produces while bob is in the room. -/
def mW : Message :=
  ⟨"uuid-w", c1id, uA, "hello", .DELIVERED, false, false, none, none, 9⟩

/-- Gateway state after bob's fixture join of chat1. -/
def gstJ : GatewayState :=
  { gstW with rooms := joinRoom gstW.rooms ("chat:" ++ c1id) sB }

/-- Database after bob's fixture join: m1 swept to DELIVERED. -/
def stJ : Store := { st0 with messages := [{ m1 with status := .DELIVERED }] }

/-- Events of bob's fixture join: one status notification to alice's
socket. -/
def emitsJ : List Emit := [Emit.messageStatus sA m1id .DELIVERED]

/-
Generic list and association-list lemmas.
-/

/-- find? commutes with a filter whose predicate is implied by the search
predicate. -/
theorem find?_filter_of_imp {α : Type} (l : List α) (p q : α → Bool)
    (h : ∀ x, p x = true → q x = true) : (l.filter q).find? p = l.find? p := by
  induction l with
  | nil => rfl
  | cons a t ih =>
    by_cases hq : q a = true
    · by_cases hp : p a = true
      · simp [List.filter_cons, hq, List.find?_cons, hp]
      · simp only [List.filter_cons, hq, if_true]
        simp only [List.find?_cons, hp, Bool.false_eq_true, if_false] at *
        simpa [hp] using ih
    · have hp : p a = false := by
        cases hpa : p a
        · rfl
        · exact absurd (h a hpa) hq
      simp [List.filter_cons, hq, List.find?_cons, hp, ih]

/-- Membership in a set after SADD. -/
theorem mem_saddL {l : List String} {x y : String} :
    y ∈ saddL l x ↔ y ∈ l ∨ y = x := by
  by_cases h : x ∈ l
  · simp only [saddL, if_pos h]
    constructor
    · exact Or.inl
    · rintro (hy | rfl)
      · exact hy
      · exact h
  · simp [saddL, if_neg h]

/-- A set is non-empty after SADD. -/
theorem saddL_ne_nil (l : List String) (x : String) : saddL l x ≠ [] := by
  by_cases h : x ∈ l
  · simp only [saddL, if_pos h]
    exact List.ne_nil_of_mem h
  · simp [saddL, if_neg h]

/-- SADD is idempotent. -/
theorem saddL_idem (l : List String) (x : String) : saddL (saddL l x) x = saddL l x := by
  by_cases h : x ∈ l <;> simp [saddL, h]

/-- Membership in a set after SREM. -/
theorem mem_sremL {l : List String} {x y : String} :
    y ∈ sremL l x ↔ y ∈ l ∧ y ≠ x := by
  simp [sremL]

/-- SREM is idempotent. -/
theorem sremL_idem (l : List String) (x : String) : sremL (sremL l x) x = sremL l x := by
  simp [sremL, List.filter_filter]

/-- SREM of a non-removed member keeps the set non-empty. -/
theorem sremL_ne_nil_of_mem_ne {l : List String} {x y : String}
    (hy : y ∈ l) (hne : y ≠ x) : sremL l x ≠ [] := by
  intro h
  have : y ∈ sremL l x := mem_sremL.mpr ⟨hy, hne⟩
  rw [h] at this
  exact absurd this (List.not_mem_nil y)

/-- SREM cannot turn an empty set non-empty. -/
theorem ne_nil_of_sremL_ne_nil {l : List String} {x : String}
    (h : sremL l x ≠ []) : l ≠ [] := by
  intro h0
  rw [h0] at h
  exact h rfl

/-- Reading the key just written. -/
theorem alistGetD_alistSet_self {α : Type} (l : List (String × α)) (k : String)
    (v d : α) : alistGetD (alistSet l k v) k d = v := by
  simp [alistGetD, alistSet, List.find?_cons]

/-- Reading a different key after a write. -/
theorem alistGetD_alistSet_ne {α : Type} (l : List (String × α)) {k k2 : String}
    (v d : α) (h : k2 ≠ k) : alistGetD (alistSet l k v) k2 d = alistGetD l k2 d := by
  have hfind : ((l.filter (fun p => decide (p.1 ≠ k))).find? (fun p => decide (p.1 = k2)))
      = l.find? (fun p => decide (p.1 = k2)) := by
    apply find?_filter_of_imp
    intro x hx
    have : x.1 = k2 := by simpa using hx
    simp [this, h]
  simp only [alistGetD, alistSet, List.find?_cons]
  have hk : (decide ((k, v).1 = k2)) = false := by simp [Ne.symm h]
  rw [hk]
  rw [hfind]

/-- Overwriting a key twice equals writing it once. -/
theorem alistSet_alistSet_self {α : Type} (l : List (String × α)) (k : String)
    (v w : α) : alistSet (alistSet l k v) k w = alistSet l k w := by
  simp [alistSet, List.filter_cons, List.filter_filter]

/-- Map.get of a key that survived deleting another key. -/
theorem alistFind_filter_ne {α : Type} (l : List (String × α)) {k s : String}
    (h : k ≠ s) : alistFind (l.filter (fun p => decide (p.1 ≠ s))) k = alistFind l k := by
  unfold alistFind
  rw [find?_filter_of_imp]
  intro x hx
  have : x.1 = k := by simpa using hx
  simp [this, h]

/-- Map.get of the key just deleted. -/
theorem alistFind_filter_self {α : Type} (l : List (String × α)) (s : String) :
    alistFind (l.filter (fun p => decide (p.1 ≠ s))) s = none := by
  unfold alistFind
  rw [List.find?_eq_none.mpr]
  · rfl
  · intro x hx
    have : x.1 ≠ s := by
      have := (List.mem_filter.mp hx).2
      simpa using this
    simp [this]

/-
Presence-store lemmas.
-/

/-- isUserOnline is membership of the users:online set. -/
theorem isUserOnline_eq_true_iff {st : PresenceState} {u : String} :
    isUserOnline st u = true ↔ u ∈ st.online := by
  by_cases h : u ∈ st.online <;> simp [isUserOnline, sismember, h]

/-- setOnline is idempotent on the whole presence state. -/
theorem setOnline_idem (st : PresenceState) (u s : String) (now : Nat) :
    setOnline (setOnline st u s now) u s now = setOnline st u s now := by
  simp [setOnline, alistGetD_alistSet_self, alistSet_alistSet_self, saddL_idem]

/-- Closed form of setOffline, the branch condition expressed on the
incoming state. -/
theorem setOffline_spec (st : PresenceState) (u s : String) (now : Nat) :
    setOffline st u s now =
      if (sremL (alistGetD st.sockets u []) s).isEmpty then
        (⟨alistSet st.records u ⟨u, .offline, now, none⟩, sremL st.online u,
          alistSet st.sockets u (sremL (alistGetD st.sockets u []) s)⟩ : PresenceState)
      else
        ⟨st.records, st.online, alistSet st.sockets u (sremL (alistGetD st.sockets u []) s)⟩ := by
  simp only [setOffline, alistGetD_alistSet_self]

/-- setOffline is idempotent on the whole presence state. -/
theorem setOffline_idem (st : PresenceState) (u s : String) (now : Nat) :
    setOffline (setOffline st u s now) u s now = setOffline st u s now := by
  rw [setOffline_spec st u s now]
  by_cases h : (sremL (alistGetD st.sockets u []) s).isEmpty
  · rw [if_pos h]
    have hnil : sremL (alistGetD st.sockets u []) s = [] := by
      simpa using h
    rw [setOffline_spec]
    simp only [alistGetD_alistSet_self, hnil]
    simp [alistSet_alistSet_self, sremL_idem, sremL]
  · rw [if_neg h]
    rw [setOffline_spec]
    simp only [alistGetD_alistSet_self, sremL_idem]
    rw [if_neg h]
    simp [alistSet_alistSet_self]

/-- One presence operation preserves presence consistency. -/
theorem presenceConsistent_step (st : PresenceState) (op : PresOp)
    (h : presenceConsistent st) : presenceConsistent (execPresOp st op) := by
  cases op with
  | markOnline uid sid now =>
    intro u
    rw [isUserOnline_eq_true_iff]
    by_cases hu : u = uid
    · subst hu
      simp only [execPresOp, setOnline, getUserSockets, alistGetD_alistSet_self]
      constructor
      · intro _
        exact saddL_ne_nil _ _
      · intro _
        exact mem_saddL.mpr (Or.inr rfl)
    · have hmem : u ∈ saddL st.online uid ↔ u ∈ st.online := by
        rw [mem_saddL]
        simp [hu]
      simp only [execPresOp, setOnline, getUserSockets, alistGetD_alistSet_ne _ _ _ hu, hmem]
      have := h u
      rw [isUserOnline_eq_true_iff] at this
      exact this
  | markOffline uid sid now =>
    intro u
    rw [isUserOnline_eq_true_iff]
    by_cases hemp : (sremL (alistGetD st.sockets uid []) sid).isEmpty
    · have hnil : sremL (alistGetD st.sockets uid []) sid = [] := by
        simpa using hemp
      by_cases hu : u = uid
      · subst hu
        simp only [execPresOp, setOffline, alistGetD_alistSet_self, hnil]
        simp [getUserSockets, alistGetD_alistSet_self, mem_sremL]
      · simp only [execPresOp, setOffline, alistGetD_alistSet_self, hnil]
        simp only [List.isEmpty_nil, if_true, getUserSockets,
          alistGetD_alistSet_ne _ _ _ hu, mem_sremL]
        have := h u
        rw [isUserOnline_eq_true_iff] at this
        simp [getUserSockets] at this
        simp [hu, this]
    · by_cases hu : u = uid
      · subst hu
        simp only [execPresOp, setOffline, alistGetD_alistSet_self]
        rw [if_neg hemp]
        simp only [getUserSockets, alistGetD_alistSet_self]
        have hl1 : sremL (alistGetD st.sockets u []) sid ≠ [] := by
          intro hx
          rw [hx] at hemp
          exact hemp rfl
        have hl0 : alistGetD st.sockets u [] ≠ [] := ne_nil_of_sremL_ne_nil hl1
        have := h u
        rw [isUserOnline_eq_true_iff] at this
        simp only [getUserSockets] at this
        constructor
        · intro _
          exact hl1
        · intro _
          exact this.mpr hl0
      · simp only [execPresOp, setOffline, alistGetD_alistSet_self]
        rw [if_neg hemp]
        simp only [getUserSockets, alistGetD_alistSet_ne _ _ _ hu]
        have := h u
        rw [isUserOnline_eq_true_iff] at this
        simp only [getUserSockets] at this
        exact this

/-- The empty presence state is consistent. -/
theorem presenceConsistent_presenceInit : presenceConsistent presenceInit := by
  intro u
  simp [isUserOnline, sismember, getUserSockets, alistGetD, presenceInit]

/-- C1: for every sequence of MarkOnline/MarkOffline operations,
isUserOnline holds exactly when the stored socket set (getUserSockets) is
non-empty, and each single operation preserves this equivalence between
online-set membership and socket-set non-emptiness. -/
theorem presence_online_iff_sockets_nonempty :
    (∀ ops u, isUserOnline (execPresOps ops presenceInit) u = true ↔
        getUserSockets (execPresOps ops presenceInit) u ≠ []) ∧
    (∀ st op, presenceConsistent st → presenceConsistent (execPresOp st op)) := by
  have hseq : ∀ ops st, presenceConsistent st → presenceConsistent (execPresOps ops st) := by
    intro ops
    induction ops with
    | nil => exact fun st h => h
    | cons op rest ih =>
      intro st h
      have : execPresOps (op :: rest) st = execPresOps rest (execPresOp st op) := rfl
      rw [this]
      exact ih _ (presenceConsistent_step st op h)
  exact ⟨fun ops u => hseq ops presenceInit presenceConsistent_presenceInit u,
         fun st op h => presenceConsistent_step st op h⟩

/-- C1 witness: the preservation part applied at a concrete state and
operation, the consistency hypothesis discharged for the initial state. -/
theorem presence_online_iff_sockets_nonempty_witness :
    presenceConsistent (execPresOp presenceInit (PresOp.markOnline uA sA 0)) :=
  presence_online_iff_sockets_nonempty.2 presenceInit (PresOp.markOnline uA sA 0)
    presenceConsistent_presenceInit

/-- C7: setOnline and setOffline are idempotent: repeating either call
with the same arguments (and the same clock reading) leaves the whole
presence state, hence the socket set, the online-set membership and the
stored status, identical to performing it once. -/
theorem setOnline_setOffline_idempotent :
    ∀ st u s now,
      setOnline (setOnline st u s now) u s now = setOnline st u s now ∧
      setOffline (setOffline st u s now) u s now = setOffline st u s now :=
  fun st u s now => ⟨setOnline_idem st u s now, setOffline_idem st u s now⟩

/-- C8: a failed Redis round-trip degrades to treating the user as
unreachable: isUserOnline reports false, getUserSockets the empty set and
getOnlineUsers the empty list, while on a successful round-trip each
returns exactly the healthy-Redis value. -/
theorem presence_reads_fail_closed :
    (∀ e : RedisError,
        isUserOnlineOnResult (.error e) = false ∧
        getUserSocketsOnResult (.error e) = [] ∧
        getOnlineUsersOnResult (.error e) = []) ∧
    (∀ st u, isUserOnlineOnResult (.ok (sismember st u)) = isUserOnline st u) ∧
    (∀ st u, getUserSocketsOnResult (.ok (getUserSockets st u)) = getUserSockets st u) ∧
    (∀ st, getOnlineUsersOnResult (.ok (getOnlineUsers st)) = getOnlineUsers st) :=
  ⟨fun _ => ⟨rfl, rfl, rfl⟩, fun _ _ => rfl, fun _ _ => rfl, fun _ => rfl⟩

/-
ChatService lemmas: undelivered query and forwarding.
-/

/-- C9: every message returned by getUndeliveredMessages has status SENT,
was not sent by the querying user, belongs to a chat having the user
among its participants, and matches the chat filter when one is given. -/
theorem getUndeliveredMessages_sound :
    ∀ st userId chatId m, m ∈ getUndeliveredMessages st userId chatId →
      m.status = .SENT ∧ m.senderId ≠ userId ∧
      (∃ c ∈ st.chats, c.id = m.chatId ∧ userId ∈ c.participants) ∧
      (∀ cid, chatId = some cid → m.chatId = cid) := by
  intro st userId chatId m hm
  obtain ⟨hmem, hpred⟩ := List.mem_filter.mp hm
  simp only [undeliveredPred, Bool.and_eq_true, decide_eq_true_eq] at hpred
  obtain ⟨⟨⟨hchat, hstatus⟩, hsender⟩, hcid⟩ := hpred
  refine ⟨hstatus, hsender, ?_, ?_⟩
  · cases hfind : st.chats.find? (fun c => decide (c.id = m.chatId)) with
    | none =>
      rw [hfind] at hchat
      exact absurd hchat (by simp)
    | some c =>
      rw [hfind] at hchat
      have hcmem : c ∈ st.chats := List.mem_of_find?_eq_some hfind
      have hcid2 : c.id = m.chatId := by
        have := List.find?_some hfind
        simpa using this
      exact ⟨c, hcmem, hcid2, by simpa using hchat⟩
  · intro cid hc
    subst hc
    simpa using hcid

/-- C9 witness: the sound properties hold of the SENT message addressed
to bob in the mixed fixture store. -/
theorem getUndeliveredMessages_sound_witness :
    m1.status = .SENT ∧ m1.senderId ≠ uB ∧
    (∃ c ∈ stMulti.chats, c.id = m1.chatId ∧ uB ∈ c.participants) ∧
    (∀ cid, (some c1id : Option String) = some cid → m1.chatId = cid) :=
  getUndeliveredMessages_sound stMulti uB (some c1id) m1 (by decide)

/-- A successfully forwarded message carries the requested source id, the
target chat, the forwarding user, the forwarded flag and status SENT. -/
theorem forwardMessage_ok_shape {st : Store} {mid toChatId userId : String}
    {ac : Option String} {now : Nat} {st1 : Store} {m : Message}
    (h : forwardMessage st mid toChatId userId ac now = .ok (st1, m)) :
    m.forwardedFromId = some mid ∧ m.chatId = toChatId ∧ m.senderId = userId ∧
    m.isForwarded = true ∧ m.status = .SENT := by
  unfold forwardMessage at h
  split at h
  · exact absurd h (by simp)
  · rename_i om hfind
    split at h
    · exact absurd h (by simp)
    · rename_i oc hoc
      split at h
      · split at h
        · exact absurd h (by simp)
        · rename_i tc htc
          split at h
          · simp only [Except.ok.injEq, Prod.mk.injEq] at h
            obtain ⟨-, hm⟩ := h
            have homid : om.id = mid := by
              have := List.find?_some hfind
              simpa using this
            subst hm
            exact ⟨by simp [homid], rfl, rfl, rfl, rfl⟩
          · exact absurd h (by simp)
      · exact absurd h (by simp)

/-- C10: forwardMultipleMessages never raises: it always resolves, a
failing forwardMessage call is skipped while the rest proceed from the
unchanged store, a succeeding call prepends its message and threads the
updated store, the returned messages reference the requested ids as an
order-preserving sublist, and every returned message is a SENT forwarded
copy in the target chat. -/
theorem forwardMultipleMessages_total_and_ordered :
    (∀ st ids toChatId userId now,
        (forwardMultipleMessages st ids toChatId userId now).isOk = true) ∧
    (∀ st mid rest toChatId userId now e,
        forwardMessage st mid toChatId userId none now = .error e →
        forwardMultipleMessages st (mid :: rest) toChatId userId now =
          forwardMultipleMessages st rest toChatId userId now) ∧
    (∀ st mid rest toChatId userId now st1 m,
        forwardMessage st mid toChatId userId none now = .ok (st1, m) →
        forwardMultipleMessages st (mid :: rest) toChatId userId now =
          .ok ((forwardLoop st1 rest toChatId userId now).1,
               m :: (forwardLoop st1 rest toChatId userId now).2)) ∧
    (∀ st ids toChatId userId now p,
        forwardMultipleMessages st ids toChatId userId now = .ok p →
        List.Sublist (p.2.map (fun m => m.forwardedFromId))
          (ids.map (fun i => some i))) ∧
    (∀ st ids toChatId userId now p m,
        forwardMultipleMessages st ids toChatId userId now = .ok p →
        m ∈ p.2 →
        m.chatId = toChatId ∧ m.senderId = userId ∧ m.isForwarded = true ∧
          m.status = .SENT) := by
  have hsub : ∀ ids st toChatId userId now,
      List.Sublist ((forwardLoop st ids toChatId userId now).2.map
        (fun m => m.forwardedFromId)) (ids.map (fun i => some i)) := by
    intro ids
    induction ids with
    | nil =>
      intro st toChatId userId now
      simp [forwardLoop]
    | cons mid rest ih =>
      intro st toChatId userId now
      cases hfm : forwardMessage st mid toChatId userId none now with
      | error e =>
        simp only [forwardLoop, hfm]
        exact (ih st toChatId userId now).cons (some mid)
      | ok r =>
        simp only [forwardLoop, hfm, List.map_cons]
        have hfm2 : forwardMessage st mid toChatId userId none now = .ok (r.1, r.2) := by
          rw [hfm]
        have hshape := forwardMessage_ok_shape hfm2
        rw [hshape.1]
        exact (ih r.1 toChatId userId now).cons₂ (some mid)
  have hmem : ∀ ids st toChatId userId now m,
      m ∈ (forwardLoop st ids toChatId userId now).2 →
      m.chatId = toChatId ∧ m.senderId = userId ∧ m.isForwarded = true ∧
        m.status = .SENT := by
    intro ids
    induction ids with
    | nil =>
      intro st toChatId userId now m hm
      simp [forwardLoop] at hm
    | cons mid rest ih =>
      intro st toChatId userId now m hm
      cases hfm : forwardMessage st mid toChatId userId none now with
      | error e =>
        rw [forwardLoop, hfm] at hm
        exact ih st toChatId userId now m hm
      | ok r =>
        rw [forwardLoop, hfm] at hm
        simp only [List.mem_cons] at hm
        cases hm with
        | inl hme =>
          subst hme
          have hfm2 : forwardMessage st mid toChatId userId none now = .ok (r.1, r.2) := by
            rw [hfm]
          have hshape := forwardMessage_ok_shape hfm2
          exact ⟨hshape.2.1, hshape.2.2.1, hshape.2.2.2.1, hshape.2.2.2.2⟩
        | inr hmr => exact ih r.1 toChatId userId now m hmr
  refine ⟨fun st ids toChatId userId now => rfl, ?_, ?_, ?_, ?_⟩
  · intro st mid rest toChatId userId now e hfm
    simp [forwardMultipleMessages, forwardLoop, hfm]
  · intro st mid rest toChatId userId now st1 m hfm
    simp [forwardMultipleMessages, forwardLoop, hfm]
  · intro st ids toChatId userId now p hp
    have : p = forwardLoop st ids toChatId userId now := (Except.ok.inj hp).symm
    rw [this]
    exact hsub ids st toChatId userId now
  · intro st ids toChatId userId now p m hp hm
    have : p = forwardLoop st ids toChatId userId now := (Except.ok.inj hp).symm
    rw [this] at hm
    exact hmem ids st toChatId userId now m hm

/-- C10 witness: forwarding a bogus id followed by the fixture message:
the bogus forward fails and is skipped, and the whole call still
resolves. -/
theorem forwardMultipleMessages_total_and_ordered_witness :
    forwardMultipleMessages st0 (bogusId :: [m1id]) c2id uA 5 =
      forwardMultipleMessages st0 [m1id] c2id uA 5 ∧
    (forwardMultipleMessages st0 (bogusId :: [m1id]) c2id uA 5).isOk = true :=
  ⟨forwardMultipleMessages_total_and_ordered.2.1 st0 bogusId [m1id] c2id uA 5
      ServiceError.notFound (by decide),
   forwardMultipleMessages_total_and_ordered.1 st0 (bogusId :: [m1id]) c2id uA 5⟩

/-
Message-status write lemmas.
-/

/-- With duplicate-free ids, looking a member message up by its own id
finds exactly it. -/
theorem find?_id_of_mem {msgs : List Message} {m : Message}
    (hN : (msgs.map (fun x => x.id)).Nodup) (hm : m ∈ msgs) :
    msgs.find? (fun x => decide (x.id = m.id)) = some m := by
  have hs : (msgs.find? (fun x => decide (x.id = m.id))).isSome := by
    rw [List.find?_isSome]
    exact ⟨m, hm, by simp⟩
  obtain ⟨x, hx⟩ := Option.isSome_iff_exists.mp hs
  have hxmem := List.mem_of_find?_eq_some hx
  have hxid : x.id = m.id := by simpa using List.find?_some hx
  have hxm : x = m := List.inj_on_of_nodup_map hN hxmem hm hxid
  rw [hx, hxm]

/-- Updating a status leaves lookups related by the per-id rewrite. -/
theorem find?_setStatusAll (msgs : List Message) (mid0 mid : String)
    (s : MessageDeliveryStatus) :
    (setStatusAll msgs mid0 s).find? (fun m => decide (m.id = mid)) =
      (msgs.find? (fun m => decide (m.id = mid))).map
        (fun m => if m.id = mid0 then { m with status := s } else m) := by
  unfold setStatusAll
  rw [List.find?_map]
  have hp : ((fun m => decide (m.id = mid)) ∘
      (fun m => if m.id = mid0 then { m with status := s } else m)) =
      (fun m : Message => decide (m.id = mid)) := by
    funext x
    by_cases hx : x.id = mid0 <;> simp [Function.comp, hx]
  rw [hp]

/-- Updating a status does not change the list of message ids. -/
theorem map_id_setStatusAll (msgs : List Message) (mid0 : String)
    (s : MessageDeliveryStatus) :
    (setStatusAll msgs mid0 s).map (fun m => m.id) = msgs.map (fun m => m.id) := by
  unfold setStatusAll
  rw [List.map_map]
  apply List.map_congr_left
  intro x _
  by_cases hx : x.id = mid0 <;> simp [Function.comp, hx]

/-- A successful updateMessageStatus rewrites exactly the rows with the
given message id. -/
theorem updateMessageStatus_ok {st : Store} {mid : String}
    {s : MessageDeliveryStatus} {st1 : Store}
    (h : updateMessageStatus st mid s = .ok st1) :
    st1 = { st with messages := setStatusAll st.messages mid s } := by
  unfold updateMessageStatus at h
  split at h
  · exact absurd h (by simp)
  · split at h
    · exact absurd h (by simp)
    · exact (Except.ok.inj h).symm

/-- A successful getChat is a successful chat-row lookup. -/
theorem getChat_ok_find? {st : Store} {cid : String} {chat : Chat}
    (h : getChat st cid = .ok chat) :
    st.chats.find? (fun c => decide (c.id = cid)) = some chat := by
  unfold getChat at h
  split at h
  · rename_i c hc
    rw [hc]
    exact congrArg some (Except.ok.inj h)
  · exact absurd h (by simp)

/-- Writing a status the unique row already has changes nothing. -/
theorem setStatusAll_eq_self {msgs : List Message} {m : Message}
    {s : MessageDeliveryStatus}
    (hN : (msgs.map (fun x => x.id)).Nodup) (hm : m ∈ msgs) (hs : m.status = s) :
    setStatusAll msgs m.id s = msgs := by
  unfold setStatusAll
  have hfix : ∀ x ∈ msgs, (if x.id = m.id then { x with status := s } else x) = x := by
    intro x hx
    by_cases hxi : x.id = m.id
    · have hxm : x = m := List.inj_on_of_nodup_map hN hx hm hxi
      subst hxm
      rw [if_pos hxi, ← hs]
    · rw [if_neg hxi]
  rw [List.map_congr_left hfix]
  simp

/-
C3: read acknowledgement of an already-READ message.
-/

/-- C3 counterexample: acknowledging a message whose stored status is
already READ is not rejected: the handler answers ok (not a conflict) and
re-emits the message:status broadcast to the sender's room, while the
claim says it reports AlreadyInTerminalState and does not re-broadcast. -/
theorem read_ack_already_read_cex :
    getMessage stRead m1id = some m1read ∧
    m1read.status = .READ ∧
    (handleMessageRead gstW stRead uB m1id).2.2 = .okResp ∧
    (handleMessageRead gstW stRead uB m1id).2.1 ≠ [] := by
  decide

/-- C3 amended: a read acknowledgement for an already-READ message leaves
the stored rows unchanged, but it is not rejected as a conflict: the
handler answers ok and re-broadcasts message:status READ to the sender's
user room. -/
theorem handleMessageRead_already_read_no_conflict :
    ∀ gst st u mid m chat,
      (st.messages.map (fun x => x.id)).Nodup →
      getMessage st mid = some m →
      m.status = .READ →
      getChat st m.chatId = .ok chat →
      u ∈ chat.participants →
      handleMessageRead gst st u mid =
        (st, [Emit.messageStatus ("user:" ++ m.senderId) mid .READ], .okResp) := by
  intro gst st u mid m chat hN hm hr hc hp
  have hfm : st.messages.find? (fun x => decide (x.id = mid)) = some m := hm
  have hmem : m ∈ st.messages := List.mem_of_find?_eq_some hfm
  have hmid : m.id = mid := by simpa using List.find?_some hfm
  have hcf : st.chats.find? (fun c => decide (c.id = m.chatId)) = some chat :=
    getChat_ok_find? hc
  have hfix : setStatusAll st.messages mid .READ = st.messages := by
    rw [← hmid]
    exact setStatusAll_eq_self hN hmem hr
  have hupd : updateMessageStatus st mid .READ = .ok st := by
    unfold updateMessageStatus
    rw [hfm]
    simp only [hcf, hfix]
  unfold handleMessageRead
  rw [show getMessage st mid = some m from hm]
  simp only [hc, if_pos hp, hupd]

/-- C3 amended witness: the no-conflict behaviour at the concrete fixture
where m1 is already READ and bob acknowledges it again. -/
theorem handleMessageRead_already_read_no_conflict_witness :
    handleMessageRead gstW stRead uB m1id =
      (stRead, [Emit.messageStatus ("user:" ++ m1read.senderId) m1id .READ], .okResp) :=
  handleMessageRead_already_read_no_conflict gstW stRead uB m1id m1read chat1
    (by decide) (by decide) (by decide) (by decide) (by decide)

/-
C2: delivery-status monotonicity.
-/

/-- Every status rank is at most the rank of READ. -/
theorem statusRank_le_two (s : MessageDeliveryStatus) : statusRank s ≤ 2 := by
  cases s <;> simp [statusRank]

/-- C2 counterexample: interleaving the join sweep with a read
acknowledgement regresses a READ message to DELIVERED.  The join handler
snapshots bob's undelivered messages ([m1]), then the read
acknowledgement marks m1 READ, then the sweep's write phase (sweepLoop,
exactly the loop handleChatJoin runs after its query await) overwrites
m1 with DELIVERED: the observed statuses SENT, READ, DELIVERED are not a
subsequence of SENT, DELIVERED, READ. -/
theorem updateStatus_interleaved_regression_cex :
    getUndeliveredMessages st0 uB (some c1id) = [m1] ∧
    getMessage (handleMessageRead gstW st0 uB m1id).1 m1id = some m1read ∧
    getMessage (sweepLoop gstW (getUndeliveredMessages st0 uB (some c1id))
        (handleMessageRead gstW st0 uB m1id).1 []).1 m1id =
      some { m1 with status := .DELIVERED } ∧
    statusRank .DELIVERED < statusRank .READ := by
  decide

/-- The sweep loop never changes the stored list of message ids. -/
theorem sweepLoop_ids (g : GatewayState) :
    ∀ (L : List Message) (st : Store) (acc : List Emit),
      (sweepLoop g L st acc).1.messages.map (fun m => m.id) =
        st.messages.map (fun m => m.id) := by
  intro L
  induction L with
  | nil => intro st acc; rfl
  | cons mm rest ih =>
    intro st acc
    cases hu : updateMessageStatus st mm.id .DELIVERED with
    | error e => simp [sweepLoop, hu]
    | ok st1 =>
      have hst1 := updateMessageStatus_ok hu
      subst hst1
      simp only [sweepLoop, hu]
      rw [ih]
      exact map_id_setStatusAll st.messages mm.id .DELIVERED

/-- Rank of the stored status of any message id never decreases across a
sweep whose targets all currently rank at most DELIVERED. -/
theorem sweepLoop_rank_mono (g : GatewayState) :
    ∀ (L : List Message) (st : Store) (acc : List Emit) (mid : String) (m m' : Message),
      (∀ mm ∈ L, ∀ x ∈ st.messages, x.id = mm.id → statusRank x.status ≤ 1) →
      getMessage st mid = some m →
      getMessage (sweepLoop g L st acc).1 mid = some m' →
      statusRank m.status ≤ statusRank m'.status := by
  intro L
  induction L with
  | nil =>
    intro st acc mid m m' hL hm hm'
    rw [show (sweepLoop g [] st acc).1 = st from rfl] at hm'
    rw [hm] at hm'
    cases Option.some.inj hm'
    exact Nat.le_refl _
  | cons mm rest ih =>
    intro st acc mid m m' hL hm hm'
    cases hu : updateMessageStatus st mm.id .DELIVERED with
    | error e =>
      simp only [sweepLoop, hu] at hm'
      rw [hm] at hm'
      cases Option.some.inj hm'
      exact Nat.le_refl _
    | ok st1 =>
      simp only [sweepLoop, hu] at hm'
      have hst1 := updateMessageStatus_ok hu
      subst hst1
      have hmf : st.messages.find? (fun x => decide (x.id = mid)) = some m := hm
      have hg1 : getMessage
          { st with messages := setStatusAll st.messages mm.id .DELIVERED } mid =
          some (if m.id = mm.id then { m with status := .DELIVERED } else m) := by
        show (setStatusAll st.messages mm.id .DELIVERED).find?
            (fun x => decide (x.id = mid)) = _
        rw [find?_setStatusAll, hmf]
        rfl
      have hrank1 : statusRank m.status ≤
          statusRank (if m.id = mm.id then { m with status := .DELIVERED } else m).status := by
        by_cases hid : m.id = mm.id
        · rw [if_pos hid]
          have hmem : m ∈ st.messages := List.mem_of_find?_eq_some hmf
          have := hL mm (List.mem_cons_self mm rest) m hmem hid
          simpa [statusRank] using this
        · rw [if_neg hid]
      have hL1 : ∀ mm2 ∈ rest,
          ∀ x ∈ ({ st with messages := setStatusAll st.messages mm.id .DELIVERED } : Store).messages,
          x.id = mm2.id → statusRank x.status ≤ 1 := by
        intro mm2 hmm2 x hx hxid
        have hx2 : x ∈ (setStatusAll st.messages mm.id .DELIVERED) := hx
        unfold setStatusAll at hx2
        obtain ⟨y, hy, hyx⟩ := List.mem_map.mp hx2
        by_cases hyid : y.id = mm.id
        · rw [← hyx]
          simp [hyid, statusRank]
        · rw [← hyx] at hxid ⊢
          rw [if_neg hyid] at hxid ⊢
          exact hL mm2 (List.mem_cons_of_mem mm hmm2) y hy hxid
      exact Nat.le_trans hrank1 (ih _ _ mid _ m' hL1 hg1 hm')

/-- Rank of the stored status of any message id never decreases across
one atomic (non-interleaved) handleChatJoin. -/
theorem handleChatJoin_store_rank_mono (gst : GatewayState) (st : Store)
    (sid u cid mid : String) (m m' : Message)
    (hN : (st.messages.map (fun x => x.id)).Nodup)
    (hm : getMessage st mid = some m)
    (hm' : getMessage (handleChatJoin gst st sid u cid).store mid = some m') :
    statusRank m.status ≤ statusRank m'.status := by
  unfold handleChatJoin at hm'
  cases hgc : getChat st cid with
  | error e =>
    simp only [hgc] at hm'
    rw [hm] at hm'
    cases Option.some.inj hm'
    exact Nat.le_refl _
  | ok chat =>
    simp only [hgc] at hm'
    by_cases hp : u ∈ chat.participants
    · simp only [if_pos hp] at hm'
      refine sweepLoop_rank_mono _ _ _ _ _ _ _ ?_ hm hm'
      intro mm hmm x hx hxid
      have hmmem : mm ∈ st.messages := (List.mem_filter.mp hmm).1
      have hms : mm.status = .SENT := by
        have hpred := (List.mem_filter.mp hmm).2
        simp only [undeliveredPred, Bool.and_eq_true, decide_eq_true_eq] at hpred
        exact hpred.1.1.2
      have hxm : x = mm := List.inj_on_of_nodup_map hN hx hmmem hxid
      rw [hxm, hms]
      simp [statusRank]
    · simp only [if_neg hp] at hm'
      rw [hm] at hm'
      cases Option.some.inj hm'
      exact Nat.le_refl _

/-- Rank of the stored status of any message id never decreases across
one atomic handleMessageRead. -/
theorem handleMessageRead_store_rank_mono (gst : GatewayState) (st : Store)
    (u mid0 mid : String) (m m' : Message)
    (hm : getMessage st mid = some m)
    (hm' : getMessage (handleMessageRead gst st u mid0).1 mid = some m') :
    statusRank m.status ≤ statusRank m'.status := by
  unfold handleMessageRead at hm'
  cases hg : getMessage st mid0 with
  | none =>
    simp only [hg] at hm'
    rw [hm] at hm'
    cases Option.some.inj hm'
    exact Nat.le_refl _
  | some message =>
    simp only [hg] at hm'
    cases hgc : getChat st message.chatId with
    | error e =>
      simp only [hgc] at hm'
      rw [hm] at hm'
      cases Option.some.inj hm'
      exact Nat.le_refl _
    | ok chat =>
      simp only [hgc] at hm'
      by_cases hp : u ∈ chat.participants
      · simp only [if_pos hp] at hm'
        cases hu : updateMessageStatus st mid0 .READ with
        | error e =>
          simp only [hu] at hm'
          rw [hm] at hm'
          cases Option.some.inj hm'
          exact Nat.le_refl _
        | ok st1 =>
          simp only [hu] at hm'
          have hst1 := updateMessageStatus_ok hu
          subst hst1
          have hmf : st.messages.find? (fun x => decide (x.id = mid)) = some m := hm
          have hg1 : getMessage
              { st with messages := setStatusAll st.messages mid0 .READ } mid =
              some (if m.id = mid0 then { m with status := .READ } else m) := by
            show (setStatusAll st.messages mid0 .READ).find?
                (fun x => decide (x.id = mid)) = _
            rw [find?_setStatusAll, hmf]
            rfl
          rw [hg1] at hm'
          cases Option.some.inj hm'
          by_cases hid : m.id = mid0
          · rw [if_pos hid]
            exact Nat.le_trans (statusRank_le_two m.status) (by simp [statusRank])
          · rw [if_neg hid]
      · simp only [if_neg hp] at hm'
        rw [hm] at hm'
        cases Option.some.inj hm'
        exact Nat.le_refl _

/-- Neither status-writing operation changes the stored message ids. -/
theorem applyChatOp_ids (gst : GatewayState) (st : Store) (op : ChatOp) :
    (applyChatOp gst st op).messages.map (fun m => m.id) =
      st.messages.map (fun m => m.id) := by
  cases op with
  | join sid u cid =>
    show (handleChatJoin gst st sid u cid).store.messages.map _ = _
    unfold handleChatJoin
    cases hgc : getChat st cid with
    | error e => simp only [hgc]
    | ok chat =>
      simp only [hgc]
      by_cases hp : u ∈ chat.participants
      · simp only [if_pos hp]
        exact sweepLoop_ids _ _ _ _
      · simp only [if_neg hp]
  | readAck u mid0 =>
    show (handleMessageRead gst st u mid0).1.messages.map _ = _
    unfold handleMessageRead
    cases hg : getMessage st mid0 with
    | none => simp only [hg]
    | some message =>
      simp only [hg]
      cases hgc : getChat st message.chatId with
      | error e => simp only [hgc]
      | ok chat =>
        simp only [hgc]
        by_cases hp : u ∈ chat.participants
        · simp only [if_pos hp]
          cases hu : updateMessageStatus st mid0 .READ with
          | error e => simp only [hu]
          | ok st1 =>
            simp only [hu]
            have hst1 := updateMessageStatus_ok hu
            subst hst1
            exact map_id_setStatusAll st.messages mid0 .READ
        · simp only [if_neg hp]

/-- A message id present before an operation is present after it. -/
theorem getMessage_isSome_of_ids_eq {st st1 : Store} {mid : String}
    (hids : st1.messages.map (fun m => m.id) = st.messages.map (fun m => m.id))
    (h : (getMessage st mid).isSome = true) : (getMessage st1 mid).isSome = true := by
  unfold getMessage at h ⊢
  rw [List.find?_isSome] at h ⊢
  obtain ⟨x, hx, hpx⟩ := h
  have hmap : mid ∈ st.messages.map (fun m => m.id) :=
    List.mem_map.mpr ⟨x, hx, by simpa using hpx⟩
  rw [← hids] at hmap
  obtain ⟨y, hy, hyid⟩ := List.mem_map.mp hmap
  exact ⟨y, hy, by simp [hyid]⟩

/-- C2 amended: when the join-triggered sweep and the read acknowledgement
run atomically (no interleaving between a sweep's snapshot and its
writes), any sequence of these operations leaves every message's stored
status rank non-decreasing in the order SENT, DELIVERED, READ, for stores
with unique message ids; the interleaved counterexample shows the claim
as stated (arbitrary interleavings) fails. -/
theorem status_monotone_sequential_ops :
    ∀ gst ops st mid m m',
      (st.messages.map (fun x => x.id)).Nodup →
      getMessage st mid = some m →
      getMessage (applyChatOps gst ops st) mid = some m' →
      statusRank m.status ≤ statusRank m'.status := by
  intro gst ops
  induction ops with
  | nil =>
    intro st mid m m' _ hm hm'
    rw [show applyChatOps gst [] st = st from rfl, hm] at hm'
    cases Option.some.inj hm'
    exact Nat.le_refl _
  | cons op rest ih =>
    intro st mid m m' hN hm hm'
    have hids := applyChatOp_ids gst st op
    have hNs : ((applyChatOp gst st op).messages.map (fun x => x.id)).Nodup := by
      rw [hids]
      exact hN
    have hsome : (getMessage (applyChatOp gst st op) mid).isSome = true :=
      getMessage_isSome_of_ids_eq hids (by rw [hm]; rfl)
    obtain ⟨m1, hm1⟩ := Option.isSome_iff_exists.mp hsome
    have step : statusRank m.status ≤ statusRank m1.status := by
      cases op with
      | join sid u cid =>
        exact handleChatJoin_store_rank_mono gst st sid u cid mid m m1 hN hm hm1
      | readAck u mid0 =>
        exact handleMessageRead_store_rank_mono gst st u mid0 mid m m1 hm hm1
    exact Nat.le_trans step (ih (applyChatOp gst st op) mid m1 m' hNs hm1 hm')

/-- C2 amended witness: across a join (m1 becomes DELIVERED) followed by a
read acknowledgement (m1 becomes READ), m1's status rank does not
decrease. -/
theorem status_monotone_sequential_ops_witness :
    statusRank m1.status ≤ statusRank m1read.status :=
  status_monotone_sequential_ops gstW
    [ChatOp.join sB uB c1id, ChatOp.readAck uB m1id] st0 m1id m1 m1read
    (by decide) (by decide) (by decide)

/-
C4: initial delivery status at send time.
-/

/-- A successful saveMessage inserts and returns the caller's message. -/
theorem saveMessage_ok {st : Store} {m : Message} {st2 : Store} {m2 : Message}
    (h : saveMessage st m = .ok (st2, m2)) : m2 = m := by
  unfold saveMessage at h
  split at h
  · exact absurd h (by simp)
  · split at h
    · have := Except.ok.inj h
      exact ((Prod.mk.injEq _ _ _ _).mp this).2.symm
    · exact absurd h (by simp)

/-- The gateway's inline reachability check succeeds exactly when the chat
has a recipient (first participant other than the sender) with at least
one registered connection inside the chat's room. -/
theorem recipientInChat_iff (gst : GatewayState) (chat : Chat) (u cid : String) :
    recipientInChat gst chat u cid = true ↔
      ∃ rid, chat.participants.find? (fun i => decide (i ≠ u)) = some rid ∧
        recipientReachableInRoom gst cid rid := by
  unfold recipientInChat recipientReachableInRoom
  cases hrec : chat.participants.find? (fun i => decide (i ≠ u)) with
  | none => simp
  | some rid =>
    simp only [List.any_eq_true, List.mem_map, List.mem_filter,
      Option.some.injEq, decide_eq_true_eq]
    constructor
    · rintro ⟨sid, ⟨p, ⟨hp, hpu⟩, hfst⟩, hroom⟩
      exact ⟨rid, rfl, p, hp, hpu, by rwa [hfst]⟩
    · rintro ⟨rid2, hrid2, p, hp, hpu, hroom⟩
      cases hrid2
      exact ⟨p.1, ⟨p, ⟨hp, hpu⟩, rfl⟩, hroom⟩

/-- C4: on a successful send, the saved message's status is DELIVERED
exactly when the computed recipient has at least one registered
connection joined to the chat's room at send time, and it is SENT in
every other case. -/
theorem handleMessage_initial_status :
    ∀ gst st sid u cid content fid now st1 msg emits,
      handleMessage gst st sid u cid content fid now = .ok (st1, msg, emits) →
      (msg.status = .DELIVERED ↔
        ∃ rid, chatRecipient st cid u = some rid ∧
          recipientReachableInRoom gst cid rid) ∧
      (msg.status = .DELIVERED ∨ msg.status = .SENT) := by
  intro gst st sid u cid content fid now st1 msg emits h
  unfold handleMessage at h
  cases hgc : getChat st cid with
  | error e =>
    rw [hgc] at h
    exact absurd h (by simp)
  | ok chat =>
    rw [hgc] at h
    simp only [] at h
    split at h
    · exact absurd h (by simp)
    · rename_i st2 message hsv
      simp only [Except.ok.injEq, Prod.mk.injEq] at h
      obtain ⟨-, hmsg, -⟩ := h
      have hml := saveMessage_ok hsv
      rw [← hmsg, hml]
      have hrecip : chatRecipient st cid u =
          chat.participants.find? (fun i => decide (i ≠ u)) := by
        unfold chatRecipient
        rw [hgc]
      rw [hrecip]
      by_cases hb : recipientInChat gst chat u cid = true
      · rw [if_pos hb]
        exact ⟨⟨fun _ => (recipientInChat_iff gst chat u cid).mp hb, fun _ => rfl⟩,
               Or.inl rfl⟩
      · rw [if_neg hb]
        refine ⟨⟨fun hcon => absurd hcon (by simp), fun hex => ?_⟩, Or.inr rfl⟩
        exact absurd ((recipientInChat_iff gst chat u cid).mpr hex) hb

/-- C4 witness: bob's socket is joined to chat1's room, so alice's send is
saved DELIVERED, and the reachability predicate holds of bob. -/
theorem handleMessage_initial_status_witness :
    (mW.status = .DELIVERED ↔
      ∃ rid, chatRecipient st0 c1id uA = some rid ∧
        recipientReachableInRoom gstW c1id rid) ∧
    (mW.status = .DELIVERED ∨ mW.status = .SENT) :=
  handleMessage_initial_status gstW st0 sA uA c1id "hello" "uuid-w" 9
    { st0 with messages := st0.messages ++ [mW] } mW
    [Emit.messageEvt ("chat:" ++ c1id) "uuid-w", Emit.messageAck sA "uuid-w"]
    (by decide)

/-
C6: join-triggered delivery sweep and its idempotence.
-/

/-- Sweeping the empty snapshot changes nothing. -/
theorem bulkDeliver_nil (msgs : List Message) : bulkDeliver [] msgs = msgs := by
  unfold bulkDeliver
  simp

/-- Lookup after a bulk sweep is the per-id rewrite of the old lookup. -/
theorem find?_bulkDeliver (msgs : List Message) (ids : List String) (mid : String) :
    (bulkDeliver ids msgs).find? (fun m => decide (m.id = mid)) =
      (msgs.find? (fun m => decide (m.id = mid))).map
        (fun m => if m.id ∈ ids then { m with status := .DELIVERED } else m) := by
  unfold bulkDeliver
  rw [List.find?_map]
  have hp : ((fun m => decide (m.id = mid)) ∘
      (fun m => if m.id ∈ ids then { m with status := .DELIVERED } else m)) =
      (fun m : Message => decide (m.id = mid)) := by
    funext x
    by_cases hx : x.id ∈ ids <;> simp [Function.comp, hx]
  rw [hp]

/-- A bulk sweep does not change the stored message ids. -/
theorem bulkDeliver_map_id (ids : List String) (msgs : List Message) :
    (bulkDeliver ids msgs).map (fun m => m.id) = msgs.map (fun m => m.id) := by
  unfold bulkDeliver
  rw [List.map_map]
  apply List.map_congr_left
  intro x _
  by_cases hx : x.id ∈ ids <;> simp [Function.comp, hx]

/-- One per-id DELIVERED write followed by a bulk sweep equals the bulk
sweep extended with that id. -/
theorem bulkDeliver_setStatusAll (ids : List String) (i : String)
    (msgs : List Message) :
    bulkDeliver ids (setStatusAll msgs i .DELIVERED) = bulkDeliver (i :: ids) msgs := by
  unfold bulkDeliver setStatusAll
  rw [List.map_map]
  apply List.map_congr_left
  intro x _
  by_cases hxi : x.id = i
  · by_cases hxids : x.id ∈ ids <;>
      simp [Function.comp, hxi, hxids, List.mem_cons]
  · by_cases hxids : x.id ∈ ids <;>
      simp [Function.comp, hxi, hxids, List.mem_cons]

/-- Closed form of a sweep whose snapshot messages all exist with their
chats and carry duplicate-free ids: every snapshot id is set to
DELIVERED, and one message:status notification goes to each registered
socket of each snapshot message's sender, in snapshot order. -/
theorem sweepLoop_char (g : GatewayState) :
    ∀ (L : List Message) (st : Store) (acc : List Emit),
      (∀ mm ∈ L, st.messages.find? (fun x => decide (x.id = mm.id)) = some mm) →
      (∀ mm ∈ L, ∃ c, st.chats.find? (fun cc => decide (cc.id = mm.chatId)) = some c) →
      (L.map (fun x => x.id)).Nodup →
      sweepLoop g L st acc =
        ({ st with messages := bulkDeliver (L.map (fun x => x.id)) st.messages },
         acc ++ L.flatMap (sweepNotifs g), none) := by
  intro L
  induction L with
  | nil =>
    intro st acc _ _ _
    rw [show sweepLoop g [] st acc = (st, acc, none) from rfl]
    rw [List.map_nil, bulkDeliver_nil]
    simp
  | cons mm rest ih =>
    intro st acc hfind hchat hLN
    obtain ⟨c, hc⟩ := hchat mm (List.mem_cons_self mm rest)
    have hfm := hfind mm (List.mem_cons_self mm rest)
    have hupd : updateMessageStatus st mm.id .DELIVERED =
        .ok { st with messages := setStatusAll st.messages mm.id .DELIVERED } := by
      unfold updateMessageStatus
      rw [hfm]
      simp only [hc]
    simp only [sweepLoop, hupd]
    have hheadid : mm.id ∉ rest.map (fun x => x.id) := by
      have := hLN
      rw [List.map_cons, List.nodup_cons] at this
      exact this.1
    have hfind1 : ∀ mm2 ∈ rest,
        ({ st with messages := setStatusAll st.messages mm.id .DELIVERED } :
          Store).messages.find? (fun x => decide (x.id = mm2.id)) = some mm2 := by
      intro mm2 hmm2
      show (setStatusAll st.messages mm.id .DELIVERED).find?
          (fun x => decide (x.id = mm2.id)) = some mm2
      rw [find?_setStatusAll, hfind mm2 (List.mem_cons_of_mem mm hmm2)]
      have hne : mm2.id ≠ mm.id := by
        intro hcontra
        exact hheadid (List.mem_map.mpr ⟨mm2, hmm2, hcontra⟩)
      simp [hne]
    have hchat1 : ∀ mm2 ∈ rest,
        ∃ c2, ({ st with messages := setStatusAll st.messages mm.id .DELIVERED } :
          Store).chats.find? (fun cc => decide (cc.id = mm2.chatId)) = some c2 := by
      intro mm2 hmm2
      exact hchat mm2 (List.mem_cons_of_mem mm hmm2)
    have hLN1 : (rest.map (fun x => x.id)).Nodup := by
      have := hLN
      rw [List.map_cons, List.nodup_cons] at this
      exact this.2
    rw [ih _ _ hfind1 hchat1 hLN1]
    simp only []
    rw [bulkDeliver_setStatusAll]
    rw [List.flatMap_cons, List.map_cons]
    rw [List.append_assoc]

/-- Repeating a room join leaves the adapter's room set unchanged. -/
theorem joinRoom_idem (rooms : List (String × List String)) (r sid : String) :
    joinRoom (joinRoom rooms r sid) r sid = joinRoom rooms r sid := by
  unfold joinRoom
  rw [alistGetD_alistSet_self, saddL_idem, alistSet_alistSet_self]

/-- Closed form of a successful handleChatJoin. -/
theorem handleChatJoin_ok_char (gst : GatewayState) (st : Store)
    (sid u cid : String) (chat : Chat)
    (hgc : getChat st cid = .ok chat)
    (hp : u ∈ chat.participants)
    (hN : (st.messages.map (fun x => x.id)).Nodup) :
    handleChatJoin gst st sid u cid =
      ⟨{ gst with rooms := joinRoom gst.rooms ("chat:" ++ cid) sid },
       { st with messages := bulkDeliver ((getUndeliveredMessages st u (some cid)).map (fun x => x.id)) st.messages },
       (getUndeliveredMessages st u (some cid)).flatMap (sweepNotifs { gst with rooms := joinRoom gst.rooms ("chat:" ++ cid) sid }),
       .ok ()⟩ := by
  have hfind : ∀ mm ∈ getUndeliveredMessages st u (some cid),
      st.messages.find? (fun x => decide (x.id = mm.id)) = some mm := by
    intro mm hmm
    have hmem : mm ∈ st.messages := (List.mem_filter.mp hmm).1
    exact find?_id_of_mem hN hmem
  have hchat : ∀ mm ∈ getUndeliveredMessages st u (some cid),
      ∃ c, st.chats.find? (fun cc => decide (cc.id = mm.chatId)) = some c := by
    intro mm hmm
    have hpred := (List.mem_filter.mp hmm).2
    simp only [undeliveredPred, Bool.and_eq_true] at hpred
    cases hfc : st.chats.find? (fun cc => decide (cc.id = mm.chatId)) with
    | none =>
      rw [hfc] at hpred
      exact absurd hpred.1.1.1 (by simp)
    | some c => exact ⟨c, rfl⟩
  have hLN : ((getUndeliveredMessages st u (some cid)).map (fun x => x.id)).Nodup := by
    have hsub : List.Sublist (getUndeliveredMessages st u (some cid)) st.messages :=
      List.filter_sublist st.messages
    exact (hsub.map (fun x => x.id)).nodup hN
  unfold handleChatJoin
  rw [hgc]
  simp only [if_pos hp]
  rw [sweepLoop_char _ _ _ _ hfind hchat hLN]
  simp

/-- C6: a successful join sweeps every stored SENT message of that chat
addressed to the joining user to DELIVERED, notifies each such message's
sender's registered sockets, and a second identical join is a no-op: it
returns the same gateway and database state and emits nothing. -/
theorem handleChatJoin_sweep_and_idempotent :
    ∀ gst st sid u cid gst1 st1 emits,
      (st.messages.map (fun x => x.id)).Nodup →
      handleChatJoin gst st sid u cid = ⟨gst1, st1, emits, .ok ()⟩ →
      (∀ m ∈ st.messages, undeliveredPred st u (some cid) m = true →
          getMessage st1 m.id = some { m with status := .DELIVERED }) ∧
      emits = (getUndeliveredMessages st u (some cid)).flatMap (sweepNotifs gst1) ∧
      handleChatJoin gst1 st1 sid u cid = ⟨gst1, st1, [], .ok ()⟩ := by
  intro gst st sid u cid gst1 st1 emits hN h
  cases hgc : getChat st cid with
  | error e =>
    unfold handleChatJoin at h
    rw [hgc] at h
    simp only [JoinResult.mk.injEq] at h
    exact absurd h.2.2.2 (by simp)
  | ok chat =>
    by_cases hp : u ∈ chat.participants
    · rw [handleChatJoin_ok_char gst st sid u cid chat hgc hp hN] at h
      simp only [JoinResult.mk.injEq] at h
      obtain ⟨hg1, hs1, hem, -⟩ := h
      refine ⟨?_, ?_, ?_⟩
      · intro m hm hpred
        have hmundel : m ∈ getUndeliveredMessages st u (some cid) :=
          List.mem_filter.mpr ⟨hm, hpred⟩
        have hmid : m.id ∈ (getUndeliveredMessages st u (some cid)).map
            (fun x => x.id) := List.mem_map.mpr ⟨m, hmundel, rfl⟩
        rw [← hs1]
        show (bulkDeliver ((getUndeliveredMessages st u (some cid)).map
            (fun x => x.id)) st.messages).find?
          (fun x => decide (x.id = m.id)) = _
        rw [find?_bulkDeliver, find?_id_of_mem hN hm]
        simp only [Option.map_some']
        rw [if_pos hmid]
      · rw [← hg1, ← hem]
      · have hchats1 : st1.chats = st.chats := by
          rw [← hs1]
        have hgc1 : getChat st1 cid = .ok chat := by
          unfold getChat at hgc ⊢
          rw [hchats1]
          exact hgc
        have hN1 : (st1.messages.map (fun x => x.id)).Nodup := by
          rw [← hs1]
          show ((bulkDeliver _ st.messages).map (fun x => x.id)).Nodup
          rw [bulkDeliver_map_id]
          exact hN
        have hempty : getUndeliveredMessages st1 u (some cid) = [] := by
          unfold getUndeliveredMessages
          rw [List.filter_eq_nil_iff]
          intro m' hm'
          intro hpred'
          have hm'2 : m' ∈ bulkDeliver ((getUndeliveredMessages st u
              (some cid)).map (fun x => x.id)) st.messages := by
            rw [← hs1] at hm'
            exact hm'
          unfold bulkDeliver at hm'2
          obtain ⟨y, hy, hyx⟩ := List.mem_map.mp hm'2
          by_cases hyid : y.id ∈ (getUndeliveredMessages st u (some cid)).map
              (fun x => x.id)
          · rw [if_pos hyid] at hyx
            have : m'.status = .DELIVERED := by
              rw [← hyx]
            have hsent : m'.status = .SENT := by
              simp only [undeliveredPred, Bool.and_eq_true, decide_eq_true_eq] at hpred'
              exact hpred'.1.1.2
            rw [hsent] at this
            exact absurd this (by simp)
          · rw [if_neg hyid] at hyx
            subst hyx
            have hpredy : undeliveredPred st u (some cid) y = true := by
              have : undeliveredPred st1 u (some cid) y =
                  undeliveredPred st u (some cid) y := by
                unfold undeliveredPred
                rw [hchats1]
              rw [← this]
              exact hpred'
            have : y ∈ getUndeliveredMessages st u (some cid) :=
              List.mem_filter.mpr ⟨hy, hpredy⟩
            exact hyid (List.mem_map.mpr ⟨y, this, rfl⟩)
        rw [handleChatJoin_ok_char gst1 st1 sid u cid chat hgc1 hp hN1]
        rw [hempty]
        have hrooms : joinRoom gst1.rooms ("chat:" ++ cid) sid = gst1.rooms := by
          rw [← hg1]
          show joinRoom (joinRoom gst.rooms ("chat:" ++ cid) sid) _ sid = _
          exact joinRoom_idem gst.rooms ("chat:" ++ cid) sid
        rw [List.map_nil, bulkDeliver_nil]
        rw [hrooms]
        simp
    · unfold handleChatJoin at h
      rw [hgc] at h
      simp only [if_neg hp, JoinResult.mk.injEq] at h
      exact absurd h.2.2.2 (by simp)

/-- C6 witness: bob's fixture join sweeps m1 to DELIVERED, notifies
alice's socket, and joining again changes nothing and emits nothing. -/
theorem handleChatJoin_sweep_and_idempotent_witness :
    (∀ m ∈ st0.messages, undeliveredPred st0 uB (some c1id) m = true →
        getMessage stJ m.id = some { m with status := .DELIVERED }) ∧
    emitsJ = (getUndeliveredMessages st0 uB (some c1id)).flatMap (sweepNotifs gstJ) ∧
    handleChatJoin gstJ stJ sB uB c1id = ⟨gstJ, stJ, [], .ok ()⟩ :=
  handleChatJoin_sweep_and_idempotent gstW st0 sB uB c1id gstJ stJ emitsJ
    (by decide) (by decide)

/-
C5: multi-connection disconnect and single offline broadcast.
-/

/-- Map.get finds the stored pair. -/
theorem alistFind_mem {α : Type} {l : List (String × α)} {k : String} {v : α}
    (h : alistFind l k = some v) : (k, v) ∈ l := by
  unfold alistFind at h
  obtain ⟨p, hp, hpv⟩ := Option.map_eq_some'.mp h
  have hpk : p.1 = k := by simpa using List.find?_some hp
  have hpe : p = (k, v) := by
    cases p with
    | mk a b =>
      cases hpk
      cases hpv
      rfl
  rw [← hpe]
  exact List.mem_of_find?_eq_some hp

/-- C5: with two registered connections of one user, disconnecting the
first leaves the user online and broadcasts nothing; disconnecting the
second flips presence to offline and broadcasts users:update offline
exactly once; a duplicate delivery of the second disconnect event
broadcasts nothing further. -/
theorem handleDisconnect_multi_connection_presence :
    ∀ gst pst u s1 s2 t1 t2 n1 n2,
      alistFind gst.connectedClients s1 = some ⟨u, t1⟩ →
      alistFind gst.connectedClients s2 = some ⟨u, t2⟩ →
      s1 ≠ s2 →
      (∀ p ∈ gst.connectedClients, p.2.userId = u → p.1 = s1 ∨ p.1 = s2) →
      isUserOnline pst u = true →
      s2 ∈ getUserSockets pst u →
      (∀ x ∈ getUserSockets pst u, x = s1 ∨ x = s2) →
      (handleDisconnect gst pst s1 n1).2.2 = [] ∧
      isUserOnline (handleDisconnect gst pst s1 n1).2.1 u = true ∧
      (handleDisconnect (handleDisconnect gst pst s1 n1).1 (handleDisconnect gst pst s1 n1).2.1 s2 n2).2.2 = [Emit.usersUpdate u false] ∧
      isUserOnline (handleDisconnect (handleDisconnect gst pst s1 n1).1 (handleDisconnect gst pst s1 n1).2.1 s2 n2).2.1 u = false ∧
      (handleDisconnect (handleDisconnect (handleDisconnect gst pst s1 n1).1 (handleDisconnect gst pst s1 n1).2.1 s2 n2).1 (handleDisconnect (handleDisconnect gst pst s1 n1).1 (handleDisconnect gst pst s1 n1).2.1 s2 n2).2.1 s2 n2).2.2 = [] := by
  intro gst pst u s1 s2 t1 t2 n1 n2 h1 h2 hne honly hon hs2 hsub
  have hmem2 : (s2, (⟨u, t2⟩ : ConnectedClient)) ∈ gst.connectedClients :=
    alistFind_mem h2
  have hany1 : (gst.connectedClients.filter (fun p => decide (p.1 ≠ s1))).any
      (fun p => decide (p.2.userId = u)) = true := by
    rw [List.any_eq_true]
    refine ⟨(s2, ⟨u, t2⟩), List.mem_filter.mpr ⟨hmem2, ?_⟩, by simp⟩
    simpa using Ne.symm hne
  have e1 : handleDisconnect gst pst s1 n1 =
      ({ gst with connectedClients := gst.connectedClients.filter (fun p => decide (p.1 ≠ s1)) }, setOffline pst u s1 n1, []) := by
    unfold handleDisconnect
    rw [h1]
    simp only [hany1]
    simp
  have hcond1 : (sremL (alistGetD pst.sockets u []) s1).isEmpty = false := by
    have hmm : s2 ∈ sremL (alistGetD pst.sockets u []) s1 :=
      mem_sremL.mpr ⟨hs2, Ne.symm hne⟩
    have hnil : sremL (alistGetD pst.sockets u []) s1 ≠ [] :=
      List.ne_nil_of_mem hmm
    simp [List.isEmpty_iff, hnil]
  have e1p : setOffline pst u s1 n1 =
      ⟨pst.records, pst.online, alistSet pst.sockets u (sremL (alistGetD pst.sockets u []) s1)⟩ := by
    rw [setOffline_spec]
    simp [hcond1]
  have hon1 : isUserOnline (setOffline pst u s1 n1) u = true := by
    rw [e1p]
    exact hon
  have hsock1 : alistGetD (setOffline pst u s1 n1).sockets u [] =
      sremL (alistGetD pst.sockets u []) s1 := by
    rw [e1p]
    exact alistGetD_alistSet_self pst.sockets u _ []
  have h2b : alistFind (gst.connectedClients.filter (fun p => decide (p.1 ≠ s1))) s2 =
      some ⟨u, t2⟩ := by
    rw [alistFind_filter_ne _ (Ne.symm hne)]
    exact h2
  have hany2 : ((gst.connectedClients.filter (fun p => decide (p.1 ≠ s1))).filter
      (fun p => decide (p.1 ≠ s2))).any (fun p => decide (p.2.userId = u)) = false := by
    rw [List.any_eq_false]
    intro p hp
    have hp2 := List.mem_filter.mp hp
    have hp1 := List.mem_filter.mp hp2.1
    intro hpu
    have hpu2 : p.2.userId = u := by simpa using hpu
    rcases honly p hp1.1 hpu2 with h | h
    · have : p.1 ≠ s1 := by simpa using hp1.2
      exact this h
    · have : p.1 ≠ s2 := by simpa using hp2.2
      exact this h
  have e2 : handleDisconnect { gst with connectedClients := gst.connectedClients.filter (fun p => decide (p.1 ≠ s1)) } (setOffline pst u s1 n1) s2 n2 =
      ({ gst with connectedClients := (gst.connectedClients.filter (fun p => decide (p.1 ≠ s1))).filter (fun p => decide (p.1 ≠ s2)) }, setOffline (setOffline pst u s1 n1) u s2 n2, [Emit.usersUpdate u false]) := by
    unfold handleDisconnect
    simp only []
    rw [h2b]
    simp only [hany2]
    simp
  have hcond2 : (sremL (alistGetD (setOffline pst u s1 n1).sockets u []) s2).isEmpty = true := by
    rw [hsock1]
    rw [List.isEmpty_iff]
    rw [List.eq_nil_iff_forall_not_mem]
    intro x hx
    have hx2 := mem_sremL.mp hx
    have hx1 := mem_sremL.mp hx2.1
    rcases hsub x hx1.1 with h | h
    · exact hx1.2 h
    · exact hx2.2 h
  have e2p : setOffline (setOffline pst u s1 n1) u s2 n2 =
      ⟨alistSet (setOffline pst u s1 n1).records u ⟨u, .offline, n2, none⟩, sremL (setOffline pst u s1 n1).online u, alistSet (setOffline pst u s1 n1).sockets u (sremL (alistGetD (setOffline pst u s1 n1).sockets u []) s2)⟩ := by
    rw [setOffline_spec]
    simp [hcond2]
  have hoff2 : isUserOnline (setOffline (setOffline pst u s1 n1) u s2 n2) u = false := by
    rw [e2p]
    apply Bool.eq_false_iff.mpr
    intro hcontra
    have hmem := isUserOnline_eq_true_iff.mp hcontra
    exact (mem_sremL.mp hmem).2 rfl
  have h3 : alistFind ((gst.connectedClients.filter (fun p => decide (p.1 ≠ s1))).filter
      (fun p => decide (p.1 ≠ s2))) s2 = none := alistFind_filter_self _ s2
  have e3 : handleDisconnect { gst with connectedClients := (gst.connectedClients.filter (fun p => decide (p.1 ≠ s1))).filter (fun p => decide (p.1 ≠ s2)) } (setOffline (setOffline pst u s1 n1) u s2 n2) s2 n2 =
      ({ gst with connectedClients := (gst.connectedClients.filter (fun p => decide (p.1 ≠ s1))).filter (fun p => decide (p.1 ≠ s2)) }, setOffline (setOffline pst u s1 n1) u s2 n2, []) := by
    unfold handleDisconnect
    simp only []
    rw [h3]
  rw [e1]
  simp only []
  rw [e2]
  simp only []
  rw [e3]
  refine ⟨?_, hon1, ?_, hoff2, ?_⟩ <;> trivial

/-- C5 witness: alice with two fixture connections: closing the first
leaves her online with no broadcast; closing the second broadcasts
offline exactly once; a stale duplicate disconnect broadcasts nothing. -/
theorem handleDisconnect_multi_connection_presence_witness :
    (handleDisconnect gstD pstD sA 1).2.2 = [] ∧
    isUserOnline (handleDisconnect gstD pstD sA 1).2.1 uA = true ∧
    (handleDisconnect (handleDisconnect gstD pstD sA 1).1 (handleDisconnect gstD pstD sA 1).2.1 sA2 2).2.2 = [Emit.usersUpdate uA false] ∧
    isUserOnline (handleDisconnect (handleDisconnect gstD pstD sA 1).1 (handleDisconnect gstD pstD sA 1).2.1 sA2 2).2.1 uA = false ∧
    (handleDisconnect (handleDisconnect (handleDisconnect gstD pstD sA 1).1 (handleDisconnect gstD pstD sA 1).2.1 sA2 2).1 (handleDisconnect (handleDisconnect gstD pstD sA 1).1 (handleDisconnect gstD pstD sA 1).2.1 sA2 2).2.1 sA2 2).2.2 = [] :=
  handleDisconnect_multi_connection_presence gstD pstD uA sA sA2 0 0 1 2
    (by decide) (by decide) (by decide) (by decide) (by decide) (by decide) (by decide)
